import Mathlib

/-!
# Verification of the vector-rs fixed-size vector library

Shallow embedding of the Rust sources `src/vector2.rs`, `src/vector3.rs`,
`src/vector4.rs` (crate `vector-rs`): three plain aggregates `Vector2`,
`Vector3`, `Vector4` over a generic scalar `T`, with component-wise
operators, cross-dimension conversions, and floating-point geometric
helpers.

Modelling conventions:
* generic Rust code over `T : Default + Add + Sub + Mul` becomes Lean code
  over a type `T` with the corresponding instances; `Default::default()`
  becomes `default` of an `Inhabited` instance;
* the `f32`/`f64` geometric methods are modelled over the exact reals `ℝ`
  (finite floating values carried exactly, arithmetic idealised as exact);
* where a claim is specifically about IEEE-754 NaN propagation the scalars
  are modelled as `Option ℝ` with `none` playing NaN, mirroring the IEEE
  rules that NaN propagates through `+`, `-`, `*`, `sqrt` and that every
  ordered comparison involving NaN is false;
* where a claim is specifically about intermediate overflow the scalars are
  modelled as exact reals together with an infinity marker: an arithmetic
  step whose exact result exceeds the largest finite `f32` produces the
  infinity, which then propagates.  This is faithful for inputs whose
  intermediate results are exactly representable.
-/

namespace VectorRs

/-- `Vector2<T>` from `src/vector2.rs`: plain aggregate of fields `x`, `y`. -/
structure Vector2 (T : Type) where
  x : T
  y : T
deriving DecidableEq, Repr

/-- `Vector3<T>` from `src/vector3.rs`: plain aggregate of fields `x`, `y`, `z`. -/
structure Vector3 (T : Type) where
  x : T
  y : T
  z : T
deriving DecidableEq, Repr

/-- `Vector4<T>` from `src/vector4.rs`: fields `x`, `y`, `z`, `w`. -/
structure Vector4 (T : Type) where
  x : T
  y : T
  z : T
  w : T
deriving DecidableEq, Repr

/-! ## Array conversions (`From<[T; N]>`), §`from_array` -/

/-- `impl From<[T; 2]> for Vector2<T>`: `Vector2::new(v[0], v[1])`.
The Rust array `[T; 2]` is modelled as `Fin 2 → T`. -/
def Vector2.fromArray {T : Type} (v : Fin 2 → T) : Vector2 T :=
  ⟨v 0, v 1⟩

/-- `impl From<[T; 3]> for Vector3<T>`: `Vector3::new(v[0], v[1], v[2])`. -/
def Vector3.fromArray {T : Type} (v : Fin 3 → T) : Vector3 T :=
  ⟨v 0, v 1, v 2⟩

/-- `impl From<[T; 4]> for Vector4<T>`: `Vector4::new(v[0], v[1], v[2], v[3])`. -/
def Vector4.fromArray {T : Type} (v : Fin 4 → T) : Vector4 T :=
  ⟨v 0, v 1, v 2, v 3⟩

/-- Modelled from the spec: the to-array direction of the bidirectional
array conversion (spec §6 "Array conversion: bidirectional with a
fixed-length array of exactly N scalars").  The files under `src/` only
contain the from-array direction; the to-array operation reads the fields
back in declared order `x, y`. -/
def Vector2.toArray {T : Type} (v : Vector2 T) : Fin 2 → T :=
  ![v.x, v.y]

/-- Modelled from the spec: to-array for `Vector3`, field order `x, y, z`. -/
def Vector3.toArray {T : Type} (v : Vector3 T) : Fin 3 → T :=
  ![v.x, v.y, v.z]

/-- Modelled from the spec: to-array for `Vector4`, field order `x, y, z, w`. -/
def Vector4.toArray {T : Type} (v : Vector4 T) : Fin 4 → T :=
  ![v.x, v.y, v.z, v.w]

/-! ## Cross-dimension conversions -/

/-- `impl From<Vector2<T>> for Vector3<T>`: copies `x`, `y`, sets
`z: Default::default()`. -/
def Vector3.fromVector2 {T : Type} [Inhabited T] (v : Vector2 T) : Vector3 T :=
  ⟨v.x, v.y, default⟩

/-- `impl From<Vector3<T>> for Vector2<T>`: `Vector2::new(v.x, v.y)`,
dropping `z`. -/
def Vector2.fromVector3 {T : Type} (v : Vector3 T) : Vector2 T :=
  ⟨v.x, v.y⟩

/-- `impl From<Vector2<T>> for Vector4<T>`:
`Vector4::new(v.x, v.y, Default::default(), Default::default())`. -/
def Vector4.fromVector2 {T : Type} [Inhabited T] (v : Vector2 T) : Vector4 T :=
  ⟨v.x, v.y, default, default⟩

/-- `impl From<Vector4<T>> for Vector2<T>`: `Vector2::new(v.x, v.y)`. -/
def Vector2.fromVector4 {T : Type} (v : Vector4 T) : Vector2 T :=
  ⟨v.x, v.y⟩

/-- `impl From<Vector3<T>> for Vector4<T>`:
`Vector4::new(v.x, v.y, v.z, Default::default())`. -/
def Vector4.fromVector3 {T : Type} [Inhabited T] (v : Vector3 T) : Vector4 T :=
  ⟨v.x, v.y, v.z, default⟩

/-- `impl From<Vector4<T>> for Vector3<T>`: copies `x`, `y`, `z`. -/
def Vector3.fromVector4 {T : Type} (v : Vector4 T) : Vector3 T :=
  ⟨v.x, v.y, v.z⟩

/-! ## Component-wise operators

The non-in-place operators (`Add`, `Sub`, `Mul` by scalar) use the scalar
type's `+`, `-`, `*`.  The in-place operators (`AddAssign`, `SubAssign`,
`MulAssign`) use the scalar type's distinct compound-assignment operation,
modelled as an explicit function `f : T → T → T` (Rust's `AddAssign` etc.
are separate traits from `Add`); the receiver mutation `self.x += rhs.x;
self.y += rhs.y; …` becomes a state transformer returning the updated
aggregate. -/

/-- `impl Add<Vector2<T>> for Vector2<T>`. -/
def Vector2.add {T : Type} [Add T] (a b : Vector2 T) : Vector2 T :=
  ⟨a.x + b.x, a.y + b.y⟩

/-- `impl AddAssign<Vector2<T>> for Vector2<T>`, with `f` the scalar `+=`. -/
def Vector2.addAssign {T : Type} (f : T → T → T) (a b : Vector2 T) : Vector2 T :=
  ⟨f a.x b.x, f a.y b.y⟩

/-- `impl Sub<Vector2<T>> for Vector2<T>`. -/
def Vector2.sub {T : Type} [Sub T] (a b : Vector2 T) : Vector2 T :=
  ⟨a.x - b.x, a.y - b.y⟩

/-- `impl SubAssign<Vector2<T>> for Vector2<T>`, with `f` the scalar `-=`. -/
def Vector2.subAssign {T : Type} (f : T → T → T) (a b : Vector2 T) : Vector2 T :=
  ⟨f a.x b.x, f a.y b.y⟩

/-- `impl Mul<T> for Vector2<T>` (vector × scalar). -/
def Vector2.mul {T : Type} [Mul T] (a : Vector2 T) (s : T) : Vector2 T :=
  ⟨a.x * s, a.y * s⟩

/-- `impl MulAssign<T> for Vector2<T>`, with `f` the scalar `*=`. -/
def Vector2.mulAssign {T : Type} (f : T → T → T) (a : Vector2 T) (s : T) : Vector2 T :=
  ⟨f a.x s, f a.y s⟩

/-- `impl Add<Vector3<T>> for Vector3<T>`. -/
def Vector3.add {T : Type} [Add T] (a b : Vector3 T) : Vector3 T :=
  ⟨a.x + b.x, a.y + b.y, a.z + b.z⟩

/-- `impl AddAssign<Vector3<T>> for Vector3<T>`, with `f` the scalar `+=`. -/
def Vector3.addAssign {T : Type} (f : T → T → T) (a b : Vector3 T) : Vector3 T :=
  ⟨f a.x b.x, f a.y b.y, f a.z b.z⟩

/-- `impl Sub<Vector3<T>> for Vector3<T>`. -/
def Vector3.sub {T : Type} [Sub T] (a b : Vector3 T) : Vector3 T :=
  ⟨a.x - b.x, a.y - b.y, a.z - b.z⟩

/-- `impl SubAssign<Vector3<T>> for Vector3<T>`, with `f` the scalar `-=`. -/
def Vector3.subAssign {T : Type} (f : T → T → T) (a b : Vector3 T) : Vector3 T :=
  ⟨f a.x b.x, f a.y b.y, f a.z b.z⟩

/-- `impl Mul<T> for Vector3<T>` (vector × scalar). -/
def Vector3.mul {T : Type} [Mul T] (a : Vector3 T) (s : T) : Vector3 T :=
  ⟨a.x * s, a.y * s, a.z * s⟩

/-- `impl MulAssign<T> for Vector3<T>`, with `f` the scalar `*=`. -/
def Vector3.mulAssign {T : Type} (f : T → T → T) (a : Vector3 T) (s : T) : Vector3 T :=
  ⟨f a.x s, f a.y s, f a.z s⟩

/-- `impl Add<Vector4<T>> for Vector4<T>`. -/
def Vector4.add {T : Type} [Add T] (a b : Vector4 T) : Vector4 T :=
  ⟨a.x + b.x, a.y + b.y, a.z + b.z, a.w + b.w⟩

/-- `impl AddAssign<Vector4<T>> for Vector4<T>`, with `f` the scalar `+=`. -/
def Vector4.addAssign {T : Type} (f : T → T → T) (a b : Vector4 T) : Vector4 T :=
  ⟨f a.x b.x, f a.y b.y, f a.z b.z, f a.w b.w⟩

/-- `impl Sub<Vector4<T>> for Vector4<T>`. -/
def Vector4.sub {T : Type} [Sub T] (a b : Vector4 T) : Vector4 T :=
  ⟨a.x - b.x, a.y - b.y, a.z - b.z, a.w - b.w⟩

/-- `impl SubAssign<Vector4<T>> for Vector4<T>`, with `f` the scalar `-=`. -/
def Vector4.subAssign {T : Type} (f : T → T → T) (a b : Vector4 T) : Vector4 T :=
  ⟨f a.x b.x, f a.y b.y, f a.z b.z, f a.w b.w⟩

/-- `impl Mul<T> for Vector4<T>` (vector × scalar). -/
def Vector4.mul {T : Type} [Mul T] (a : Vector4 T) (s : T) : Vector4 T :=
  ⟨a.x * s, a.y * s, a.z * s, a.w * s⟩

/-- `impl MulAssign<T> for Vector4<T>`, with `f` the scalar `*=`. -/
def Vector4.mulAssign {T : Type} (f : T → T → T) (a : Vector4 T) (s : T) : Vector4 T :=
  ⟨f a.x s, f a.y s, f a.z s, f a.w s⟩

/-! ## `Vector3::dot` and `Vector3::cross` (generic arithmetic `T`) -/

/-- `Vector3::dot`: `self.x * other.x + self.y * other.y + self.z * other.z`. -/
def Vector3.dot {T : Type} [Add T] [Mul T] (a b : Vector3 T) : T :=
  a.x * b.x + a.y * b.y + a.z * b.z

/-- `Vector3::cross`: components
`(self.y*other.z - self.z*other.y, self.z*other.x - self.x*other.z,
self.x*other.y - self.y*other.x)`. -/
def Vector3.cross {T : Type} [Sub T] [Mul T] (a b : Vector3 T) : Vector3 T :=
  ⟨a.y * b.z - a.z * b.y, a.z * b.x - a.x * b.z, a.x * b.y - a.y * b.x⟩

/-- `Vector4::dot`: pairwise product sum over all four components. -/
def Vector4.dot {T : Type} [Add T] [Mul T] (a b : Vector4 T) : T :=
  a.x * b.x + a.y * b.y + a.z * b.z + a.w * b.w

/-! ## `impl Vector2<f32>` / `impl Vector2<f64>` geometric methods,
modelled over the exact reals (finite floating values carried exactly,
arithmetic idealised as exact).  `powi(2)` is `^ 2`, `sqrt` is
`Real.sqrt`, `recip` is `⁻¹`. -/

/-- `Vector2::magnitude`: `(self.x.powi(2) + self.y.powi(2)).sqrt()`. -/
noncomputable def Vector2.magnitude (v : Vector2 ℝ) : ℝ :=
  Real.sqrt (v.x ^ 2 + v.y ^ 2)

/-- `Vector2::normalize`: `let inv_sqrt = self.magnitude().recip()`;
returns a new vector with each component multiplied by `inv_sqrt`
(the receiver is taken by `&self` and never written). -/
noncomputable def Vector2.normalize (v : Vector2 ℝ) : Vector2 ℝ :=
  let inv_sqrt := v.magnitude⁻¹
  ⟨v.x * inv_sqrt, v.y * inv_sqrt⟩

/-- `Vector2::clamp_mag`: `let mag = self.magnitude(); if mag > limit {
let inv_mag = mag.recip(); self.x *= inv_mag * limit; self.y *= inv_mag *
limit; }` — the in-place mutation modelled as a state transformer. -/
noncomputable def Vector2.clamp_mag (v : Vector2 ℝ) (limit : ℝ) : Vector2 ℝ :=
  let mag := v.magnitude
  if limit < mag then
    let inv_mag := mag⁻¹
    ⟨v.x * (inv_mag * limit), v.y * (inv_mag * limit)⟩
  else v

/-- `Vector2::distance`: `(self.x - other.x).hypot(self.y - other.y)`.
Over exact arithmetic `hypot a b = sqrt (a² + b²)`. -/
noncomputable def Vector2.distance (v other : Vector2 ℝ) : ℝ :=
  Real.sqrt ((v.x - other.x) ^ 2 + (v.y - other.y) ^ 2)

/-- `Vector2::set_rotation`: `let sin = angle.sin(); let cos = angle.cos();
self.x = self.x * cos - self.y * sin; self.y = self.x * sin + self.y * cos;`
— note the second assignment reads `self.x` AFTER the first assignment has
overwritten it, exactly as the Rust statement sequence does. -/
noncomputable def Vector2.set_rotation (v : Vector2 ℝ) (angle : ℝ) : Vector2 ℝ :=
  let sin := Real.sin angle
  let cos := Real.cos angle
  let newX := v.x * cos - v.y * sin
  let newY := newX * sin + v.y * cos
  ⟨newX, newY⟩

/-- The rotation the spec states (claim formula): `x' = x·cos θ − y·sin θ`,
`y' = x·sin θ + y·cos θ`, both computed from the ORIGINAL components.
Written from the spec's words, to be compared with
`Vector2.set_rotation` above. -/
noncomputable def Vector2.rotationSpec (v : Vector2 ℝ) (angle : ℝ) : Vector2 ℝ :=
  ⟨v.x * Real.cos angle - v.y * Real.sin angle,
   v.x * Real.sin angle + v.y * Real.cos angle⟩

/-- `Vector3::magnitude`:
`(self.x.powi(2) + self.y.powi(2) + self.z.powi(2)).sqrt()`. -/
noncomputable def Vector3.magnitude (v : Vector3 ℝ) : ℝ :=
  Real.sqrt (v.x ^ 2 + v.y ^ 2 + v.z ^ 2)

/-- `Vector3::normalize`: each component multiplied by
`self.magnitude().recip()`. -/
noncomputable def Vector3.normalize (v : Vector3 ℝ) : Vector3 ℝ :=
  let inv_sqrt := v.magnitude⁻¹
  ⟨v.x * inv_sqrt, v.y * inv_sqrt, v.z * inv_sqrt⟩

/-! ## NaN-aware model of the `f32` scalars

For claims about IEEE-754 NaN behaviour the scalar is `FN := Option ℝ`,
with `none` playing NaN and `some r` a non-NaN value carried exactly.
The IEEE rules modelled: NaN propagates through `+`, `-`, `*`, `x.powi(2)`,
`sqrt` and `hypot`; `sqrt` of a negative argument is NaN; every ordered
comparison (`>` here) involving a NaN operand is false.  (Infinities are
not distinguished in this model; the claims using it only exercise NaN
and ordinary finite values.) -/

/-- An `f32` value for NaN-behaviour claims: `none` is NaN. -/
abbrev FN : Type := Option ℝ

/-- IEEE `+` with NaN propagation. -/
def FN.add : FN → FN → FN
  | some a, some b => some (a + b)
  | _, _ => none

/-- IEEE `-` with NaN propagation. -/
def FN.sub : FN → FN → FN
  | some a, some b => some (a - b)
  | _, _ => none

/-- IEEE `*` with NaN propagation. -/
def FN.mul : FN → FN → FN
  | some a, some b => some (a * b)
  | _, _ => none

/-- IEEE `recip` with NaN propagation (the zero case, which in IEEE gives
an infinity, is outside what the NaN claims exercise). -/
noncomputable def FN.recip : FN → FN
  | some a => some a⁻¹
  | none => none

/-- IEEE `sqrt`: NaN in, or a negative argument, gives NaN. -/
noncomputable def FN.sqrt : FN → FN
  | some a => if a < 0 then none else some (Real.sqrt a)
  | none => none

/-- IEEE `hypot` on non-NaN arguments is `sqrt (a² + b²)`; a NaN argument
gives NaN. -/
noncomputable def FN.hypot : FN → FN → FN
  | some a, some b => some (Real.sqrt (a ^ 2 + b ^ 2))
  | _, _ => none

/-- The strict `>` used by `if mag > limit`: true only when BOTH operands
are non-NaN and the comparison holds (IEEE: any comparison with NaN is
false). `FN.gtP a b` is `a > b`. -/
def FN.gtP : FN → FN → Prop
  | some a, some b => b < a
  | _, _ => False

/-- `Vector2::magnitude` over the NaN-aware scalars:
`(self.x.powi(2) + self.y.powi(2)).sqrt()`. -/
noncomputable def Vector2.magnitudeFN (v : Vector2 FN) : FN :=
  FN.sqrt (FN.add (FN.mul v.x v.x) (FN.mul v.y v.y))

open Classical in
/-- `Vector2::clamp_mag` over the NaN-aware scalars: the body mutates the
components only under `mag > limit`; with NaN anywhere in the comparison
the guard is false and `self` is returned untouched. -/
noncomputable def Vector2.clamp_magFN (v : Vector2 FN) (limit : FN) : Vector2 FN :=
  let mag := v.magnitudeFN
  if FN.gtP mag limit then
    let inv_mag := FN.recip mag
    ⟨FN.mul v.x (FN.mul inv_mag limit), FN.mul v.y (FN.mul inv_mag limit)⟩
  else v

/-- `Vector2::distance` over the NaN-aware scalars:
`(self.x - other.x).hypot(self.y - other.y)`. -/
noncomputable def Vector2.distanceFN (v other : Vector2 FN) : FN :=
  FN.hypot (FN.sub v.x other.x) (FN.sub v.y other.y)

/-! ## Overflow-aware model of the `f32` scalars

For the claim about intermediate overflow, a computation value is either a
finite `f32` carried exactly (`F32.val`) or the infinity produced once a
step's exact result exceeds the largest finite `f32`
(`F32MAX = (2^24 − 1)·2^104 ≈ 3.4028235·10^38`).  Arithmetic below the
threshold is idealised as exact, which is faithful for inputs whose
intermediate results are exactly representable. -/

/-- The largest finite `f32`, exactly: `(2^24 − 1)·2^104`. -/
def F32MAX : ℝ := (2 ^ 24 - 1) * 2 ^ 104

/-- An `f32` computation value for overflow claims. -/
inductive F32 : Type where
  | val (v : ℝ)
  | inf

/-- `x.powi(2)` with overflow: exceeds the largest finite `f32` → infinity. -/
noncomputable def F32.powi2 (x : ℝ) : F32 :=
  if F32MAX < x ^ 2 then F32.inf else F32.val (x ^ 2)

/-- `+` with overflow and infinity propagation. -/
noncomputable def F32.add : F32 → F32 → F32
  | F32.val a, F32.val b => if F32MAX < a + b then F32.inf else F32.val (a + b)
  | _, _ => F32.inf

/-- `sqrt`: infinity in, infinity out. -/
noncomputable def F32.sqrt : F32 → F32
  | F32.val a => F32.val (Real.sqrt a)
  | F32.inf => F32.inf

/-- `f32::hypot`: computes `sqrt (x² + y²)` WITHOUT intermediate overflow
(its defining property); the result is infinite only when the true
hypotenuse itself exceeds the largest finite `f32`. -/
noncomputable def F32.hypot (x y : ℝ) : F32 :=
  if F32MAX < Real.sqrt (x ^ 2 + y ^ 2) then F32.inf
  else F32.val (Real.sqrt (x ^ 2 + y ^ 2))

/-- `Vector2::magnitude` in the overflow model:
`(self.x.powi(2) + self.y.powi(2)).sqrt()` — the squares and their sum are
formed BEFORE the square root, so they can overflow. -/
noncomputable def Vector2.magnitudeF32 (v : Vector2 ℝ) : F32 :=
  F32.sqrt (F32.add (F32.powi2 v.x) (F32.powi2 v.y))

/-- `Vector2::distance` in the overflow model:
`(self.x - other.x).hypot(self.y - other.y)`. -/
noncomputable def Vector2.distanceF32 (v other : Vector2 ℝ) : F32 :=
  F32.hypot (v.x - other.x) (v.y - other.y)

/-! ## Helper lemmas -/

/-- A (2-D) magnitude is a square root, hence nonnegative. -/
lemma Vector2.magnitude2_nonneg (v : Vector2 ℝ) : 0 ≤ v.magnitude :=
  Real.sqrt_nonneg _

/-- A (3-D) magnitude is a square root, hence nonnegative. -/
lemma Vector3.magnitude3_nonneg (v : Vector3 ℝ) : 0 ≤ v.magnitude :=
  Real.sqrt_nonneg _

/-- Scaling both components by a nonnegative factor scales the magnitude. -/
lemma Vector2.magnitude2_scale (v : Vector2 ℝ) (s : ℝ) (hs : 0 ≤ s) :
    Vector2.magnitude ⟨v.x * s, v.y * s⟩ = v.magnitude * s := by
  unfold Vector2.magnitude
  have h : (v.x * s) ^ 2 + (v.y * s) ^ 2 = (v.x ^ 2 + v.y ^ 2) * s ^ 2 := by
    ring
  rw [h, Real.sqrt_mul (by positivity), Real.sqrt_sq hs]

/-- Scaling all three components by a nonnegative factor scales the magnitude. -/
lemma Vector3.magnitude3_scale (v : Vector3 ℝ) (s : ℝ) (hs : 0 ≤ s) :
    Vector3.magnitude ⟨v.x * s, v.y * s, v.z * s⟩ = v.magnitude * s := by
  unfold Vector3.magnitude
  have h : (v.x * s) ^ 2 + (v.y * s) ^ 2 + (v.z * s) ^ 2 =
      (v.x ^ 2 + v.y ^ 2 + v.z ^ 2) * s ^ 2 := by
    ring
  rw [h, Real.sqrt_mul (by positivity), Real.sqrt_sq hs]

/-- `‖(3,4)‖ = 5` in the exact model. -/
lemma Vector2.magnitude_three_four : Vector2.magnitude ⟨3, 4⟩ = 5 := by
  unfold Vector2.magnitude
  rw [show (3 : ℝ) ^ 2 + (4 : ℝ) ^ 2 = 5 ^ 2 by norm_num, Real.sqrt_sq (by norm_num)]

/-- `‖(1,2,2)‖ = 3` in the exact model. -/
lemma Vector3.magnitude_one_two_two : Vector3.magnitude ⟨1, 2, 2⟩ = 3 := by
  unfold Vector3.magnitude
  rw [show (1 : ℝ) ^ 2 + (2 : ℝ) ^ 2 + (2 : ℝ) ^ 2 = 3 ^ 2 by norm_num,
    Real.sqrt_sq (by norm_num)]

/-- A NaN `x` component makes the computed magnitude NaN. -/
lemma Vector2.magnitudeFN_nan_x (v : Vector2 FN) (hx : v.x = none) :
    v.magnitudeFN = none := by
  unfold Vector2.magnitudeFN
  rw [hx]
  cases v.y <;> rfl

/-- A NaN `y` component makes the computed magnitude NaN. -/
lemma Vector2.magnitudeFN_nan_y (v : Vector2 FN) (hy : v.y = none) :
    v.magnitudeFN = none := by
  unfold Vector2.magnitudeFN
  rw [hy]
  cases v.x with
  | none => rfl
  | some a =>
    show FN.sqrt (FN.add (some (a * a)) none) = none
    rfl

/-- An IEEE ordered comparison with NaN on the left is false. -/
lemma FN.gtP_nan_left (b : FN) : ¬ FN.gtP none b := by
  cases b <;> exact fun h => h

/-- An IEEE ordered comparison with NaN on the right is false. -/
lemma FN.gtP_nan_right (a : FN) : ¬ FN.gtP a none := by
  cases a <;> exact fun h => h

/-! ## Claims -/

/-- **C3**. Each vector type converts bidirectionally with a fixed-length
array of exactly N scalars: a to-array operation exists alongside
from-array, and for every vector `v` of matching arity
`from_array (to_array v) = v`. -/
theorem fromArray_toArray_roundTrip {T : Type}
    (v2 : Vector2 T) (v3 : Vector3 T) (v4 : Vector4 T) :
    Vector2.fromArray v2.toArray = v2 ∧
    Vector3.fromArray v3.toArray = v3 ∧
    Vector4.fromArray v4.toArray = v4 :=
  ⟨rfl, rfl, rfl⟩

/-- **C5**. For every scalar type `T` whose default value is zero and every
2-vector `v`: widening `v` to 3 or 4 components and narrowing back yields
exactly `v`, and the widened value carries `v`'s components in `x`, `y`
with zero in every newly introduced trailing component. -/
theorem widen_narrow_roundTrip {T : Type} [Inhabited T] [Zero T]
    (hzero : (default : T) = 0) (v : Vector2 T) :
    Vector2.fromVector3 (Vector3.fromVector2 v) = v ∧
    Vector2.fromVector4 (Vector4.fromVector2 v) = v ∧
    Vector3.fromVector2 v = ⟨v.x, v.y, 0⟩ ∧
    Vector4.fromVector2 v = ⟨v.x, v.y, 0, 0⟩ := by
  refine ⟨rfl, rfl, ?_, ?_⟩ <;>
    simp [Vector3.fromVector2, Vector4.fromVector2, hzero]

/-- Witness for **C5** at `T = ℤ`, `v = (1, 2)`: the integer default is `0`,
and `(1,2)` widens to `(1,2,0)` and `(1,2,0,0)` and narrows back to `(1,2)`. -/
theorem widen_narrow_roundTrip_witness :
    ((default : ℤ) = 0) ∧
    (Vector2.fromVector3 (Vector3.fromVector2 (⟨1, 2⟩ : Vector2 ℤ)) = ⟨1, 2⟩ ∧
     Vector2.fromVector4 (Vector4.fromVector2 (⟨1, 2⟩ : Vector2 ℤ)) = ⟨1, 2⟩ ∧
     Vector3.fromVector2 (⟨1, 2⟩ : Vector2 ℤ) = ⟨1, 2, 0⟩ ∧
     Vector4.fromVector2 (⟨1, 2⟩ : Vector2 ℤ) = ⟨1, 2, 0, 0⟩) :=
  ⟨rfl, widen_narrow_roundTrip rfl ⟨1, 2⟩⟩

/-- **C6**. For each vector type and each operator pair (`+`/`+=`, `-`/`-=`,
`*`scalar/`*=`scalar), when the scalar compound-assignment operation agrees
with the scalar binary operation, the in-place vector operator produces
exactly the value of the non-in-place one. -/
theorem assign_ops_match_pure_ops {T : Type} [Add T] [Sub T] [Mul T]
    (fa fs fm : T → T → T)
    (ha : ∀ a b : T, fa a b = a + b)
    (hs : ∀ a b : T, fs a b = a - b)
    (hm : ∀ a b : T, fm a b = a * b)
    (v2 w2 : Vector2 T) (v3 w3 : Vector3 T) (v4 w4 : Vector4 T) (s : T) :
    v2.addAssign fa w2 = v2.add w2 ∧
    v2.subAssign fs w2 = v2.sub w2 ∧
    v2.mulAssign fm s = v2.mul s ∧
    v3.addAssign fa w3 = v3.add w3 ∧
    v3.subAssign fs w3 = v3.sub w3 ∧
    v3.mulAssign fm s = v3.mul s ∧
    v4.addAssign fa w4 = v4.add w4 ∧
    v4.subAssign fs w4 = v4.sub w4 ∧
    v4.mulAssign fm s = v4.mul s := by
  refine ⟨?_, ?_, ?_, ?_, ?_, ?_, ?_, ?_, ?_⟩ <;>
    simp [Vector2.add, Vector2.addAssign, Vector2.sub, Vector2.subAssign,
      Vector2.mul, Vector2.mulAssign, Vector3.add, Vector3.addAssign,
      Vector3.sub, Vector3.subAssign, Vector3.mul, Vector3.mulAssign,
      Vector4.add, Vector4.addAssign, Vector4.sub, Vector4.subAssign,
      Vector4.mul, Vector4.mulAssign, ha, hs, hm]

/-- Witness for **C6** at `T = ℤ` with the scalar compound assignments
taken to be the scalar operations themselves, on concrete vectors. -/
theorem assign_ops_match_pure_ops_witness :
    Vector2.addAssign (fun a b => a + b) ⟨1, 2⟩ ⟨3, 4⟩ =
      Vector2.add (⟨1, 2⟩ : Vector2 ℤ) ⟨3, 4⟩ ∧
    Vector2.subAssign (fun a b => a - b) ⟨1, 2⟩ ⟨3, 4⟩ =
      Vector2.sub (⟨1, 2⟩ : Vector2 ℤ) ⟨3, 4⟩ ∧
    Vector2.mulAssign (fun a b => a * b) ⟨1, 2⟩ 2 =
      Vector2.mul (⟨1, 2⟩ : Vector2 ℤ) 2 ∧
    Vector3.addAssign (fun a b => a + b) ⟨1, 2, 3⟩ ⟨4, 5, 6⟩ =
      Vector3.add (⟨1, 2, 3⟩ : Vector3 ℤ) ⟨4, 5, 6⟩ ∧
    Vector3.subAssign (fun a b => a - b) ⟨1, 2, 3⟩ ⟨4, 5, 6⟩ =
      Vector3.sub (⟨1, 2, 3⟩ : Vector3 ℤ) ⟨4, 5, 6⟩ ∧
    Vector3.mulAssign (fun a b => a * b) ⟨1, 2, 3⟩ 2 =
      Vector3.mul (⟨1, 2, 3⟩ : Vector3 ℤ) 2 ∧
    Vector4.addAssign (fun a b => a + b) ⟨1, 2, 3, 4⟩ ⟨5, 6, 7, 8⟩ =
      Vector4.add (⟨1, 2, 3, 4⟩ : Vector4 ℤ) ⟨5, 6, 7, 8⟩ ∧
    Vector4.subAssign (fun a b => a - b) ⟨1, 2, 3, 4⟩ ⟨5, 6, 7, 8⟩ =
      Vector4.sub (⟨1, 2, 3, 4⟩ : Vector4 ℤ) ⟨5, 6, 7, 8⟩ ∧
    Vector4.mulAssign (fun a b => a * b) ⟨1, 2, 3, 4⟩ 2 =
      Vector4.mul (⟨1, 2, 3, 4⟩ : Vector4 ℤ) 2 :=
  assign_ops_match_pure_ops (fun a b => a + b) (fun a b => a - b)
    (fun a b => a * b) (fun _ _ => rfl) (fun _ _ => rfl) (fun _ _ => rfl)
    ⟨1, 2⟩ ⟨3, 4⟩ ⟨1, 2, 3⟩ ⟨4, 5, 6⟩ ⟨1, 2, 3, 4⟩ ⟨5, 6, 7, 8⟩ 2

/-- **C8**. For every arithmetic-capable scalar `T` and all 3-vectors
`a`, `b`: `dot` is the sum of pairwise component products, `cross` is the
right-handed cross product; concretely over `ℤ`,
`(1,2,3)·(4,5,6) = 32` and `(1,2,3)×(4,5,6) = (-3,6,-3)`. -/
theorem dot_cross_formulas {T : Type} [Add T] [Sub T] [Mul T]
    (a b : Vector3 T) :
    a.dot b = a.x * b.x + a.y * b.y + a.z * b.z ∧
    a.cross b = ⟨a.y * b.z - a.z * b.y, a.z * b.x - a.x * b.z,
      a.x * b.y - a.y * b.x⟩ ∧
    Vector3.dot (⟨1, 2, 3⟩ : Vector3 ℤ) ⟨4, 5, 6⟩ = 32 ∧
    Vector3.cross (⟨1, 2, 3⟩ : Vector3 ℤ) ⟨4, 5, 6⟩ = ⟨-3, 6, -3⟩ :=
  ⟨rfl, rfl, by decide, by decide⟩

/-- **C1** (code bug evidence). At `v = (1,0)`, `θ = π/2` the implemented
`set_rotation` yields `(0,0)` because the new `y` is computed from the
already-overwritten `x`, while the spec's rotation formula (both components
from the original `x`) yields `(0,1)`. -/
theorem set_rotation_quarter_turn_mismatch :
    Vector2.set_rotation ⟨1, 0⟩ (Real.pi / 2) = ⟨0, 0⟩ ∧
    Vector2.rotationSpec ⟨1, 0⟩ (Real.pi / 2) = ⟨0, 1⟩ ∧
    Vector2.set_rotation ⟨1, 0⟩ (Real.pi / 2) ≠
      Vector2.rotationSpec ⟨1, 0⟩ (Real.pi / 2) := by
  have h1 : Vector2.set_rotation ⟨1, 0⟩ (Real.pi / 2) = ⟨0, 0⟩ := by
    simp [Vector2.set_rotation, Real.sin_pi_div_two, Real.cos_pi_div_two]
  have h2 : Vector2.rotationSpec ⟨1, 0⟩ (Real.pi / 2) = ⟨0, 1⟩ := by
    simp [Vector2.rotationSpec, Real.sin_pi_div_two, Real.cos_pi_div_two]
  refine ⟨h1, h2, ?_⟩
  rw [h1, h2]
  simp [Vector2.mk.injEq]

/-- **C4** (counterexample to the claim as stated). The claim quantifies
over every limit; at `v = (3,4)`, `limit = -1` the prior magnitude `5`
exceeds the limit, yet the clamped vector's magnitude is not `-1` (a
magnitude is a square root, hence nonnegative — the code rescales by the
negative factor `-1/5`, flipping the direction and producing magnitude `1`). -/
theorem clamp_mag_negative_limit_counterexample :
    (-1 : ℝ) < Vector2.magnitude ⟨3, 4⟩ ∧
    Vector2.magnitude (Vector2.clamp_mag ⟨3, 4⟩ (-1)) ≠ -1 := by
  constructor
  · rw [Vector2.magnitude_three_four]
    norm_num
  · intro h
    have hn := Vector2.magnitude2_nonneg (Vector2.clamp_mag ⟨3, 4⟩ (-1))
    rw [h] at hn
    norm_num at hn

/-- **C4** (amended: the limit is nonnegative). After `clamp_mag limit`
with `0 ≤ limit`: if the prior magnitude exceeded `limit` the components
are each scaled by the single combined factor `magnitude⁻¹ * limit` and
the new magnitude is exactly `limit`; otherwise the vector is unchanged.
Concretely, clamping `(3,4)` (magnitude `5`) to `5/2` gives `(3/2, 2)`,
of magnitude exactly `5/2` and in the original direction. -/
theorem clamp_mag_nonneg_limit_correct (v : Vector2 ℝ) (limit : ℝ)
    (hl : 0 ≤ limit) :
    (limit < v.magnitude →
      v.clamp_mag limit =
        ⟨v.x * (v.magnitude⁻¹ * limit), v.y * (v.magnitude⁻¹ * limit)⟩ ∧
      (v.clamp_mag limit).magnitude = limit) ∧
    (¬ limit < v.magnitude → v.clamp_mag limit = v) ∧
    Vector2.clamp_mag ⟨3, 4⟩ (5 / 2) = ⟨3 / 2, 2⟩ ∧
    Vector2.magnitude (Vector2.clamp_mag ⟨3, 4⟩ (5 / 2)) = 5 / 2 := by
  have key : ∀ (w : Vector2 ℝ) (lim : ℝ), 0 ≤ lim → lim < w.magnitude →
      w.clamp_mag lim =
        ⟨w.x * (w.magnitude⁻¹ * lim), w.y * (w.magnitude⁻¹ * lim)⟩ ∧
      (w.clamp_mag lim).magnitude = lim := by
    intro w lim hlim hgt
    have hpos : 0 < w.magnitude := lt_of_le_of_lt hlim hgt
    have heq : w.clamp_mag lim =
        ⟨w.x * (w.magnitude⁻¹ * lim), w.y * (w.magnitude⁻¹ * lim)⟩ := by
      unfold Vector2.clamp_mag
      rw [if_pos hgt]
    refine ⟨heq, ?_⟩
    rw [heq, Vector2.magnitude2_scale w _
      (mul_nonneg (inv_nonneg.2 w.magnitude2_nonneg) hlim),
      ← mul_assoc, mul_inv_cancel₀ (ne_of_gt hpos), one_mul]
  have hconc := key ⟨3, 4⟩ (5 / 2) (by norm_num)
    (by rw [Vector2.magnitude_three_four]; norm_num)
  refine ⟨key v limit hl, ?_, ?_, hconc.2⟩
  · intro hle
    unfold Vector2.clamp_mag
    rw [if_neg hle]
  · rw [hconc.1, Vector2.magnitude_three_four]
    norm_num

/-- Witness for **C4** at `v = (3,4)`, `limit = 5/2`. -/
theorem clamp_mag_nonneg_limit_correct_witness :
    ((0 : ℝ) ≤ 5 / 2) ∧
    (((5 : ℝ) / 2 < Vector2.magnitude ⟨3, 4⟩ →
      Vector2.clamp_mag ⟨3, 4⟩ (5 / 2) =
        ⟨3 * ((Vector2.magnitude ⟨3, 4⟩)⁻¹ * (5 / 2)),
         4 * ((Vector2.magnitude ⟨3, 4⟩)⁻¹ * (5 / 2))⟩ ∧
      Vector2.magnitude (Vector2.clamp_mag ⟨3, 4⟩ (5 / 2)) = 5 / 2) ∧
    (¬ (5 : ℝ) / 2 < Vector2.magnitude ⟨3, 4⟩ →
      Vector2.clamp_mag ⟨3, 4⟩ (5 / 2) = ⟨3, 4⟩) ∧
    Vector2.clamp_mag ⟨3, 4⟩ (5 / 2) = ⟨3 / 2, 2⟩ ∧
    Vector2.magnitude (Vector2.clamp_mag ⟨3, 4⟩ (5 / 2)) = 5 / 2) :=
  ⟨by norm_num, clamp_mag_nonneg_limit_correct ⟨3, 4⟩ (5 / 2) (by norm_num)⟩

/-- **C7**. For every 2- or 3-vector of nonzero magnitude, `normalize`
returns the vector scaled by the reciprocal of its magnitude (the model is
a pure function of the receiver, which is not modified), and the magnitude
of the result is exactly `1` — in particular within the `1e-6` tolerance. -/
theorem normalize_unit_magnitude (v : Vector2 ℝ) (w : Vector3 ℝ)
    (hv : v.magnitude ≠ 0) (hw : w.magnitude ≠ 0) :
    v.normalize = ⟨v.x * v.magnitude⁻¹, v.y * v.magnitude⁻¹⟩ ∧
    (v.normalize).magnitude = 1 ∧
    |(v.normalize).magnitude - 1| ≤ 1 / 1000000 ∧
    w.normalize = ⟨w.x * w.magnitude⁻¹, w.y * w.magnitude⁻¹,
      w.z * w.magnitude⁻¹⟩ ∧
    (w.normalize).magnitude = 1 ∧
    |(w.normalize).magnitude - 1| ≤ 1 / 1000000 := by
  have h2 : (v.normalize).magnitude = 1 := by
    show Vector2.magnitude ⟨v.x * v.magnitude⁻¹, v.y * v.magnitude⁻¹⟩ = 1
    rw [Vector2.magnitude2_scale v _ (inv_nonneg.2 v.magnitude2_nonneg),
      mul_inv_cancel₀ hv]
  have h3 : (w.normalize).magnitude = 1 := by
    show Vector3.magnitude ⟨w.x * w.magnitude⁻¹, w.y * w.magnitude⁻¹,
      w.z * w.magnitude⁻¹⟩ = 1
    rw [Vector3.magnitude3_scale w _ (inv_nonneg.2 w.magnitude3_nonneg),
      mul_inv_cancel₀ hw]
  refine ⟨rfl, h2, ?_, rfl, h3, ?_⟩
  · rw [h2]; norm_num
  · rw [h3]; norm_num

/-- Witness for **C7** at `v = (3,4)` (magnitude `5`) and `w = (1,2,2)`
(magnitude `3`). -/
theorem normalize_unit_magnitude_witness :
    Vector2.magnitude ⟨3, 4⟩ ≠ 0 ∧
    Vector3.magnitude ⟨1, 2, 2⟩ ≠ 0 ∧
    (Vector2.normalize ⟨3, 4⟩ =
      ⟨3 * (Vector2.magnitude ⟨3, 4⟩)⁻¹, 4 * (Vector2.magnitude ⟨3, 4⟩)⁻¹⟩ ∧
    Vector2.magnitude (Vector2.normalize ⟨3, 4⟩) = 1 ∧
    |Vector2.magnitude (Vector2.normalize ⟨3, 4⟩) - 1| ≤ 1 / 1000000 ∧
    Vector3.normalize ⟨1, 2, 2⟩ =
      ⟨1 * (Vector3.magnitude ⟨1, 2, 2⟩)⁻¹, 2 * (Vector3.magnitude ⟨1, 2, 2⟩)⁻¹,
       2 * (Vector3.magnitude ⟨1, 2, 2⟩)⁻¹⟩ ∧
    Vector3.magnitude (Vector3.normalize ⟨1, 2, 2⟩) = 1 ∧
    |Vector3.magnitude (Vector3.normalize ⟨1, 2, 2⟩) - 1| ≤ 1 / 1000000) := by
  have hv : Vector2.magnitude ⟨3, 4⟩ ≠ 0 := by
    rw [Vector2.magnitude_three_four]; norm_num
  have hw : Vector3.magnitude ⟨1, 2, 2⟩ ≠ 0 := by
    rw [Vector3.magnitude_one_two_two]; norm_num
  exact ⟨hv, hw, normalize_unit_magnitude ⟨3, 4⟩ ⟨1, 2, 2⟩ hv hw⟩

/-- **C9**. `clamp_mag` mutates the vector only when the computed magnitude
compares strictly greater than the limit; in particular with NaN in either
component or in the limit, the IEEE comparison is false and the vector is
returned unchanged (the operation is total — it never signals an error or
replaces a degenerate vector). -/
theorem clamp_mag_nan_unchanged (v : Vector2 FN) (limit : FN)
    (h : v.x = none ∨ v.y = none ∨ limit = none ∨
      ¬ FN.gtP v.magnitudeFN limit) :
    v.clamp_magFN limit = v := by
  have hng : ¬ FN.gtP v.magnitudeFN limit := by
    rcases h with hx | hy | hlim | hng
    · rw [Vector2.magnitudeFN_nan_x v hx]
      exact FN.gtP_nan_left limit
    · rw [Vector2.magnitudeFN_nan_y v hy]
      exact FN.gtP_nan_left limit
    · rw [hlim]
      exact FN.gtP_nan_right _
    · exact hng
  unfold Vector2.clamp_magFN
  rw [if_neg hng]

/-- Witness for **C9**: a vector with NaN `x` component and a real limit is
returned bit-for-bit unchanged. -/
theorem clamp_mag_nan_unchanged_witness :
    ((none : FN) = none ∨ (some 1 : FN) = none ∨ (some 5 : FN) = none ∨
      ¬ FN.gtP (Vector2.magnitudeFN ⟨none, some 1⟩) (some 5)) ∧
    Vector2.clamp_magFN ⟨none, some 1⟩ (some 5) = ⟨none, some 1⟩ :=
  ⟨Or.inl rfl, clamp_mag_nan_unchanged ⟨none, some 1⟩ (some 5) (Or.inl rfl)⟩

/-- **C10**. For 2-vectors with no NaN component, `distance` is symmetric:
`hypot` applied to the negated component differences yields the same value. -/
theorem distance_symm (a b : Vector2 FN)
    (h : (∃ r, a.x = some r) ∧ (∃ r, a.y = some r) ∧
      (∃ r, b.x = some r) ∧ (∃ r, b.y = some r)) :
    a.distanceFN b = b.distanceFN a := by
  obtain ⟨⟨ax, hax⟩, ⟨ay, hay⟩, ⟨bx, hbx⟩, ⟨byy, hby⟩⟩ := h
  unfold Vector2.distanceFN
  rw [hax, hay, hbx, hby]
  show some (Real.sqrt ((ax - bx) ^ 2 + (ay - byy) ^ 2)) =
    some (Real.sqrt ((bx - ax) ^ 2 + (byy - ay) ^ 2))
  congr 1
  ring_nf

/-- Witness for **C10** at `a = (1,2)`, `b = (4,6)`. -/
theorem distance_symm_witness :
    ((∃ r : ℝ, (some 1 : FN) = some r) ∧ (∃ r : ℝ, (some 2 : FN) = some r) ∧
     (∃ r : ℝ, (some 4 : FN) = some r) ∧ (∃ r : ℝ, (some 6 : FN) = some r)) ∧
    Vector2.distanceFN ⟨some 1, some 2⟩ ⟨some 4, some 6⟩ =
      Vector2.distanceFN ⟨some 4, some 6⟩ ⟨some 1, some 2⟩ :=
  ⟨⟨⟨1, rfl⟩, ⟨2, rfl⟩, ⟨4, rfl⟩, ⟨6, rfl⟩⟩,
   distance_symm ⟨some 1, some 2⟩ ⟨some 4, some 6⟩
     ⟨⟨1, rfl⟩, ⟨2, rfl⟩, ⟨4, rfl⟩, ⟨6, rfl⟩⟩⟩

/-- **C2** (counterexample to the claim as stated). At the finite `f32`
input `x = 2^127`, `y = 0` the implemented magnitude squares `x` first,
overflowing to infinity, while `hypot x y` (and so `distance` to the zero
vector) is the finite `2^127`: the magnitude is NOT computed via the
two-argument hypotenuse and does not avoid intermediate overflow. -/
theorem magnitude_overflow_counterexample :
    Vector2.magnitudeF32 ⟨2 ^ 127, 0⟩ = F32.inf ∧
    F32.hypot (2 ^ 127) 0 = F32.val (2 ^ 127) ∧
    Vector2.distanceF32 ⟨2 ^ 127, 0⟩ ⟨0, 0⟩ = F32.val (2 ^ 127) ∧
    Vector2.magnitudeF32 ⟨2 ^ 127, 0⟩ ≠
      Vector2.distanceF32 ⟨2 ^ 127, 0⟩ ⟨0, 0⟩ := by
  have hsq : Real.sqrt (((2 : ℝ) ^ 127) ^ 2 + 0 ^ 2) = 2 ^ 127 := by
    rw [show ((2 : ℝ) ^ 127) ^ 2 + 0 ^ 2 = (2 ^ 127) ^ 2 by ring,
      Real.sqrt_sq (by positivity)]
  have h1 : Vector2.magnitudeF32 ⟨2 ^ 127, 0⟩ = F32.inf := by
    unfold Vector2.magnitudeF32
    have hov : F32.powi2 ((2 : ℝ) ^ 127) = F32.inf := by
      unfold F32.powi2
      rw [if_pos (by norm_num [F32MAX])]
    rw [hov]
    rfl
  have h2 : F32.hypot (2 ^ 127) 0 = F32.val (2 ^ 127) := by
    unfold F32.hypot
    rw [hsq, if_neg (by norm_num [F32MAX])]
  have h3 : Vector2.distanceF32 ⟨2 ^ 127, 0⟩ ⟨0, 0⟩ = F32.val (2 ^ 127) := by
    unfold Vector2.distanceF32
    show F32.hypot ((2 : ℝ) ^ 127 - 0) (0 - 0) = F32.val (2 ^ 127)
    rw [sub_zero, sub_zero]
    exact h2
  refine ⟨h1, h2, h3, ?_⟩
  rw [h1, h3]
  exact fun hcontr => F32.noConfusion hcontr

/-- **C2** (amended). `magnitude` computes the square root of the directly
formed sum of squares; whenever that sum does not exceed the largest
finite `f32` it agrees with `hypot x y` and with the distance to the zero
vector, but (per the counterexample) not when the intermediate sum
overflows. -/
theorem magnitude_matches_hypot_without_overflow (x y : ℝ)
    (hs : x ^ 2 + y ^ 2 ≤ F32MAX) :
    Vector2.magnitudeF32 ⟨x, y⟩ = F32.val (Real.sqrt (x ^ 2 + y ^ 2)) ∧
    Vector2.magnitudeF32 ⟨x, y⟩ = F32.hypot x y ∧
    Vector2.magnitudeF32 ⟨x, y⟩ = Vector2.distanceF32 ⟨x, y⟩ ⟨0, 0⟩ := by
  have hx : x ^ 2 ≤ F32MAX := le_trans (le_add_of_nonneg_right (sq_nonneg y)) hs
  have hy : y ^ 2 ≤ F32MAX := le_trans (le_add_of_nonneg_left (sq_nonneg x)) hs
  have h1 : Vector2.magnitudeF32 ⟨x, y⟩ = F32.val (Real.sqrt (x ^ 2 + y ^ 2)) := by
    unfold Vector2.magnitudeF32 F32.powi2
    rw [if_neg (not_lt.2 hx), if_neg (not_lt.2 hy)]
    have hadd : F32.add (F32.val (x ^ 2)) (F32.val (y ^ 2)) =
        if F32MAX < x ^ 2 + y ^ 2 then F32.inf else F32.val (x ^ 2 + y ^ 2) :=
      rfl
    rw [hadd, if_neg (not_lt.2 hs)]
    rfl
  have hroot : Real.sqrt (x ^ 2 + y ^ 2) ≤ F32MAX := by
    have hone : (1 : ℝ) ≤ F32MAX := by norm_num [F32MAX]
    refine Real.sqrt_le_iff.mpr ⟨by linarith, le_trans hs ?_⟩
    nlinarith
  have h2 : F32.hypot x y = F32.val (Real.sqrt (x ^ 2 + y ^ 2)) := by
    unfold F32.hypot
    rw [if_neg (not_lt.2 hroot)]
  have h3 : Vector2.distanceF32 ⟨x, y⟩ ⟨0, 0⟩ = F32.hypot x y := by
    unfold Vector2.distanceF32
    show F32.hypot (x - 0) (y - 0) = F32.hypot x y
    rw [sub_zero, sub_zero]
  exact ⟨h1, by rw [h1, h2], by rw [h1, h3, h2]⟩

/-- Witness for **C2**'s amended theorem at `x = 3`, `y = 4` (no overflow). -/
theorem magnitude_matches_hypot_without_overflow_witness :
    ((3 : ℝ) ^ 2 + 4 ^ 2 ≤ F32MAX) ∧
    (Vector2.magnitudeF32 ⟨3, 4⟩ = F32.val (Real.sqrt (3 ^ 2 + 4 ^ 2)) ∧
     Vector2.magnitudeF32 ⟨3, 4⟩ = F32.hypot 3 4 ∧
     Vector2.magnitudeF32 ⟨3, 4⟩ = Vector2.distanceF32 ⟨3, 4⟩ ⟨0, 0⟩) :=
  ⟨by norm_num [F32MAX],
   magnitude_matches_hypot_without_overflow 3 4 (by norm_num [F32MAX])⟩

end VectorRs
